import Mathlib

/-!
Shallow embedding of `pelita/player/base2.py`: the `SimpleTeam` multiplexer,
the `Player2` agent-session base class, and the reference players.

Modelling conventions:
* Python exceptions are `Except PyErr`; a raised exception propagating out of
  a method is an `Except.error` result.
* World snapshots (`Universe` objects) are mutable Python objects; we model
  them with an explicit heap (`Heap`, a list of abstract snapshot values
  addressed by position).  `universe_states` stores heap addresses, so the
  copy-vs-reference storage policies and later in-place mutation of a
  snapshot object are observable.
* Methods that may mutate `self` are state-passing functions returning the
  post-state of `self` as a component of the result.
* External collaborators (the `datamodel` movement primitive `move_bot`, the
  snapshot position accessors) are parameters of the functions that call
  them, typed after spec section 6.
-/

deriving instance DecidableEq for Except

/-- Abstract content of a world snapshot (the `Universe` value). -/
abbrev SnapVal := Nat

/-- Heap of snapshot objects: addresses are list positions. -/
abbrev Heap := List SnapVal

/-- Dereference a snapshot address (addresses produced by `Heap.alloc` are
always in range; out-of-range reads return a junk value, they cannot arise
from the embedded code). -/
def Heap.read (h : Heap) (a : Nat) : SnapVal := h.getD a 0

/-- Allocate a fresh snapshot object holding value `v`; models
`universe.copy()` when `v` is the value of an existing snapshot. -/
def Heap.alloc (h : Heap) (v : SnapVal) : Heap × Nat := (h ++ [v], h.length)

/-- In-place mutation of the snapshot object at address `a`. -/
def Heap.write (h : Heap) (a : Nat) (v : SnapVal) : Heap := h.set a v

/-- Python exception values distinguished by the embedded code. -/
inductive PyErr where
  | valueError (msg : String)
  | typeError (msg : String)
  | indexError
  | keyError
  | attributeError (attr : String)
  | stopIteration
  | illegalMove (e : Nat)
deriving DecidableEq, Repr

/-- Direction values from `pelita.datamodel` (`north`, `south`, `west`,
`east`, `stop`), kept abstract. -/
inductive Dir where
  | north
  | south
  | west
  | east
  | stop
deriving DecidableEq, Repr

/-- The game-state dict passed by the referee: the `seed` key consumed by
`Player2._set_initial` plus an opaque remainder. -/
structure GState where
  seed : Option Int
  data : Nat
deriving DecidableEq, Repr

/-- The dict returned by `Player2._get_move`: keys `move` and `say`. -/
structure MoveDict where
  move : Dir
  say : String
deriving DecidableEq, Repr

/-- Normalisation of a Python subscript: negative indices count from the
end of the list. -/
def pyNorm (len : Nat) (i : Int) : Int := if i < 0 then i + len else i

/-- Python list subscript with negative-index semantics: `l[i]` is
`l[i + len l]` for negative `i`, and raises `IndexError` out of range. -/
def pyIdx (l : List Nat) (i : Int) : Except PyErr Nat :=
  if 0 ≤ pyNorm l.length i ∧ pyNorm l.length i < l.length then
    .ok (l.getD (pyNorm l.length i).toNat 0)
  else .error .indexError

/-- State of a `Player2` session.  `storePolicy` models which bound method
`self._store_universe` refers to after `_set_initial` (true = the
`_store_universe_ref` variant, false = `_store_universe_copy`); before
initialisation its value is irrelevant.  `seed_offset` is `some k` when the
concrete class defines a `seed_offset` attribute (the `getattr` default
applies otherwise).  `rnd` is the seed state of `self.rnd`: `some s` when
`rnd.seed(s)` was called, `none` for an unseeded stream.  `hasCopy` records
whether the concrete class defines a `copy` method (the `Player2` base class
defines none); when it does, it is assumed to implement the full-state clone
of spec section 4.5. -/
structure Session where
  _index : Int
  _remote_game : Bool
  seed_offset : Option Int
  storePolicy : Bool
  universe_states : List Nat
  _current_state : GState
  rnd : Option Int
  _say : String
  hasCopy : Bool
deriving DecidableEq, Repr

namespace Player2

/-- `Player2._set_index`: store the index assigned by `SimpleTeam`. -/
def _set_index (s : Session) (index : Int) : Session :=
  { s with _index := index }

/-- `Player2._store_universe_copy`: append `universe.copy()` (a freshly
allocated snapshot object with the same value). -/
def _store_universe_copy (s : Session) (h : Heap) (addr : Nat) : Session × Heap :=
  let (h2, na) := h.alloc (h.read addr)
  ({ s with universe_states := s.universe_states ++ [na] }, h2)

/-- `Player2._store_universe_ref`: append the snapshot object itself. -/
def _store_universe_ref (s : Session) (h : Heap) (addr : Nat) : Session × Heap :=
  ({ s with universe_states := s.universe_states ++ [addr] }, h)

/-- Dispatch through the bound method `self._store_universe` chosen at
initialisation. -/
def _store_universe (s : Session) (h : Heap) (addr : Nat) : Session × Heap :=
  if s.storePolicy then _store_universe_ref s h addr else _store_universe_copy s h addr

/-- `Player2._set_initial`: fix the storage policy from `_remote_game`, set
the current game state, reset and seed the history with the initial
snapshot, seed `self.rnd` from the game seed plus the offset (defaulting to
the bound index), then run the subclass `set_initial` hook. -/
def _set_initial (hook : Session → Session) (s : Session) (h : Heap)
    (uniAddr : Nat) (gs : GState) : Session × Heap :=
  let s1 := { s with storePolicy := s._remote_game, _current_state := gs,
                     universe_states := [] }
  let (s2, h2) := _store_universe s1 h uniAddr
  let seedOffset := s2.seed_offset.getD s2._index
  let rnd : Option Int := match gs.seed with
    | some sd => some (sd + seedOffset)
    | none => none
  (hook { s2 with rnd := rnd }, h2)

/-- `Player2._get_move`: record the game state, store the new snapshot,
clear the spoken text, run the concrete `get_move` logic (which may set
`_say`), and package move and text.  `getMove` is the abstract method of the
concrete class; it reads the session and heap and returns the updated
session and chosen move. -/
def _get_move (getMove : Session → Heap → Session × Dir) (s : Session) (h : Heap)
    (uniAddr : Nat) (gs : GState) : Session × Heap × MoveDict :=
  let s1 := { s with _current_state := gs }
  let (s2, h2) := _store_universe s1 h uniAddr
  let s3 := { s2 with _say := "" }
  let (s4, move) := getMove s3 h2
  (s4, h2, { move := move, say := s4._say })

/-- `Player2._current_uni`: `self.universe_states[-1]`. -/
def _current_uni (s : Session) : Except PyErr Nat :=
  pyIdx s.universe_states (-1)

/-- `Player2.previous_pos`: `self.universe_states[-2].bots[self._index].current_pos`.
`botPos` is the external accessor mapping a snapshot value and bot index to
that bot current position. -/
def previous_pos (botPos : SnapVal → Int → Int × Int) (s : Session) (h : Heap) :
    Except PyErr (Int × Int) :=
  (pyIdx s.universe_states (-2)).map fun a => botPos (h.read a) s._index

/-- Modelled from the spec: the session clone invoked as `self.copy()` by
`simulate_move`.  The `Player2` class itself defines no `copy` method, so
this operation exists only when the concrete class supplies it; spec
section 4.5 step 2 requires it to clone the calling session full state
(history, metadata reference, bound index, random-stream state) into a new,
unlinked session object, which in this value model is a field-by-field
copy. -/
def Session.copy (s : Session) : Session :=
  { _index := s._index, _remote_game := s._remote_game,
    seed_offset := s.seed_offset, storePolicy := s.storePolicy,
    universe_states := s.universe_states, _current_state := s._current_state,
    rnd := s.rnd, _say := s._say, hasCopy := s.hasCopy }

/-- Type of the external movement primitive `universe.move_bot(index, move)`
(spec section 6 `apply-move`): applied to the value of the snapshot it is
invoked on, it either rejects the move (`IllegalMoveException`, abstract
payload) or yields the mutated snapshot value and the new game state. -/
abbrev MoveBot := SnapVal → Int → Dir → Except Nat (SnapVal × GState)

/-- `Player2.simulate_move`: copy the current snapshot, clone the session
(`self.copy()` — an `AttributeError` when the concrete class defines no
`copy`), apply the movement primitive to the copy, append the resulting
snapshot to the clone history and install the new game state in the clone.
Returns the post-state of `self`, the heap, and the detached future session
or the propagated exception. -/
def simulate_move (moveBot : MoveBot) (s : Session) (h : Heap) (move : Dir) :
    Session × Heap × Except PyErr Session :=
  match _current_uni s with
  | .error e => (s, h, .error e)
  | .ok curAddr =>
    let curVal := h.read curAddr
    let (h1, futAddr) := h.alloc curVal
    if s.hasCopy then
      let futureSelf := Session.copy s
      match moveBot curVal s._index move with
      | .error e => (s, h1, .error (.illegalMove e))
      | .ok (newVal, newState) =>
        let h2 := h1.write futAddr newVal
        (s, h2, .ok { futureSelf with
                        universe_states := futureSelf.universe_states ++ [futAddr],
                        _current_state := newState })
    else
      (s, h1, .error (.attributeError "copy"))

end Player2

/-- A Python object passed to `SimpleTeam`: either a string (the optional
team name) or a player object.  A player object carries an identity, the
index assigned by `_set_index` (if any), and which of the three required
private methods it defines. -/
structure PlayerObj where
  pid : Nat
  _index : Option Int
  has_set_index : Bool
  has_get_move : Bool
  has_set_initial : Bool
deriving DecidableEq, Repr

inductive PyObj where
  | str (s : String)
  | player (p : PlayerObj)
deriving DecidableEq, Repr

/-- Python `hasattr` for the three methods probed by `SimpleTeam.__init__`
(a string defines none of them). -/
def PyObj.hasattr : PyObj → String → Bool
  | .str _, _ => false
  | .player p, m =>
    if m = "_set_index" then p.has_set_index
    else if m = "_get_move" then p.has_get_move
    else if m = "_set_initial" then p.has_set_initial
    else false

/-- Effect of `player._set_index(i)` on the player object. -/
def PyObj.set_index : PyObj → Int → PyObj
  | .str s, _ => .str s
  | .player p, i => .player { p with _index := some i }

/-- State of a `SimpleTeam`: configured name, the player list given at
construction, and the `_bot_players` dict (an insertion-ordered association
list, as in CPython). -/
structure SimpleTeam where
  team_name : String
  _players : List PyObj
  _bot_players : List (Int × PyObj)
  _remote_game : Bool
deriving DecidableEq, Repr

/-- Lookup in a `_bot_players`-style dict: the value at the first (and,
for dicts built by `dictSet`, only) occurrence of the key. -/
def dictGet : List (Int × PyObj) → Int → Option PyObj
  | [], _ => none
  | kv :: rest, k => if kv.1 = k then some kv.2 else dictGet rest k

/-- Assignment `d[k] = v` on a `_bot_players`-style dict: overwrite in
place when the key is present, append otherwise (CPython insertion-order
dict semantics). -/
def dictSet : List (Int × PyObj) → Int → PyObj → List (Int × PyObj)
  | [], k, v => [(k, v)]
  | kv :: rest, k, v => if kv.1 = k then (k, v) :: rest else kv :: dictSet rest k v

namespace SimpleTeam

/-- The method names probed, in the order of the `__init__` loop. -/
def requiredMethods : List String := ["_set_index", "_get_move", "_set_initial"]

/-- First missing capability over the players, in loop order: for each
player in order, for each method in order, the first `hasattr` failure. -/
def firstMissing (players : List PyObj) : Option String :=
  players.findSome? fun p => requiredMethods.find? fun m => ¬ p.hasattr m

/-- The `players` part of the `__init__` argument tuple: everything after a
leading string. -/
def playersPart (args : List PyObj) : List PyObj :=
  match args with
  | .str _ :: rest => rest
  | _ => args

/-- The team name taken from the `__init__` argument tuple: a leading
string, or the empty string. -/
def namePart (args : List PyObj) : String :=
  match args with
  | .str s :: _ => s
  | _ => ""

/-- `SimpleTeam.__init__(*args)`: raise `ValueError` on an empty argument
list; split off a leading string as the team name (empty name otherwise);
raise `TypeError` naming the first missing required method; otherwise build
the team with an empty `_bot_players` dict and the remote flag unset. -/
def init (args : List PyObj) : Except PyErr SimpleTeam :=
  if args.isEmpty then .error (.valueError "No teams given.") else
  match firstMissing (playersPart args) with
  | some m => .error (.typeError ("player missing " ++ m ++ "()"))
  | none => .ok { team_name := namePart args, _players := playersPart args,
                  _bot_players := [], _remote_game := false }

/-- `SimpleTeam.set_initial`: `team_bots` is the list of bot indices the
referee assigned to this team (`universe.team_bots(team_id)`).  Raise
`ValueError` when there are more assigned bots than players; otherwise walk
`zip(team_bots, self._players)`, calling `_set_index` and `_set_initial` on
each player and recording the binding in `_bot_players`, and return the team
name.  (The per-player `_set_initial` session effect is modelled at the
`Player2` level; here the bound player object records its assigned index.)
Returns the post-state of `self` together with the result. -/
def set_initial (t : SimpleTeam) (team_bots : List Int) :
    SimpleTeam × Except PyErr String :=
  if team_bots.length > t._players.length then
    (t, .error (.valueError ("Tried to set " ++ toString team_bots.length ++
       " bot_ids with only " ++ toString t._players.length ++ " Players.")))
  else
    let t2 := (team_bots.zip t._players).foldl
      (fun acc bp =>
        { acc with _bot_players := dictSet acc._bot_players bp.1 (bp.2.set_index bp.1) })
      t
    (t2, .ok t.team_name)

/-- `SimpleTeam.get_move`: forward to the player bound to `bot_id` (a
`KeyError` on an unbound index). -/
def get_move (t : SimpleTeam) (bot_id : Int) : Except PyErr PyObj :=
  match dictGet t._bot_players bot_id with
  | some p => .ok p
  | none => .error .keyError

end SimpleTeam

/-- The `SteppingPlayer._MOVES` shorthand table. -/
def SteppingPlayer.MOVES : Char → Option Dir
  | '^' => some Dir.north
  | 'v' => some Dir.south
  | '<' => some Dir.west
  | '>' => some Dir.east
  | '-' => some Dir.stop
  | _ => none

/-- State of a `SteppingPlayer` built from a shorthand string: the
not-yet-consumed generator items.  Each item is the (lazy) lookup
`_MOVES[c]`; `none` means the lookup will raise `KeyError` when the
generator is advanced. -/
structure SteppingPlayer where
  moves : List (Option Dir)
deriving DecidableEq, Repr

namespace SteppingPlayer

/-- `SteppingPlayer(moves)` for a shorthand string argument: iterate the
generator `(self._MOVES[move] for move in moves)`. -/
def fromString (s : String) : SteppingPlayer :=
  ⟨s.toList.map MOVES⟩

/-- `SteppingPlayer.get_move`: `next(self.moves)`, with `StopIteration`
caught and re-raised as a bare `ValueError`. -/
def get_move (p : SteppingPlayer) : SteppingPlayer × Except PyErr Dir :=
  match p.moves with
  | [] => (⟨[]⟩, .error (.valueError ""))
  | none :: rest => (⟨rest⟩, .error .keyError)
  | some d :: rest => (⟨rest⟩, .ok d)

end SteppingPlayer

/-! Helper lemmas about the heap and Python list indexing. -/

theorem Heap.read_append_lt (h : Heap) (v : SnapVal) {a : Nat} (ha : a < h.length) :
    (h ++ [v]).read a = h.read a :=
  List.getD_append h [v] 0 a ha

theorem Heap.read_append_self (h : Heap) (v : SnapVal) :
    (h ++ [v]).read h.length = v := by
  simp [Heap.read, List.getD_append_right h [v] 0 h.length le_rfl]

theorem Heap.read_write_self (h : Heap) {a : Nat} (v : SnapVal) (ha : a < h.length) :
    (h.write a v).read a = v := by
  have hlen : a < (h.set a v).length := by simpa using ha
  rw [Heap.read, Heap.write, List.getD_eq_getElem _ _ hlen]
  exact List.getElem_set_self _

theorem Heap.read_write_ne (h : Heap) {a b : Nat} (v : SnapVal) (hab : a ≠ b) :
    (h.write a v).read b = h.read b := by
  rcases Nat.lt_or_ge b h.length with hb | hb
  · have hb2 : b < (h.set a v).length := by simpa using hb
    rw [Heap.read, Heap.write, List.getD_eq_getElem _ _ hb2,
      List.getElem_set_ne (by omega), Heap.read, List.getD_eq_getElem _ _ hb]
  · rw [Heap.read, Heap.write, List.getD_eq_default _ _ (by simpa using hb),
      Heap.read, List.getD_eq_default _ _ hb]

theorem Heap.length_write (h : Heap) (a : Nat) (v : SnapVal) :
    (h.write a v).length = h.length := by
  simp [Heap.write]

theorem pyNorm_neg (len : Nat) (i : Int) (hi : i < 0) : pyNorm len i = i + len :=
  if_pos hi

theorem pyIdx_neg_one (l : List Nat) (hl : l ≠ []) :
    pyIdx l (-1) = .ok (l.getD (l.length - 1) 0) := by
  have hlen : 0 < l.length := List.length_pos.mpr hl
  simp only [pyIdx, pyNorm_neg l.length (-1) (by norm_num)]
  rw [if_pos (by constructor <;> omega)]
  have ht : ((-1 : Int) + l.length).toNat = l.length - 1 := by omega
  rw [ht]

theorem pyIdx_neg_two_ok (l : List Nat) (hl : 2 ≤ l.length) :
    pyIdx l (-2) = .ok (l.getD (l.length - 2) 0) := by
  simp only [pyIdx, pyNorm_neg l.length (-2) (by norm_num)]
  rw [if_pos (by constructor <;> omega)]
  have ht : ((-2 : Int) + l.length).toNat = l.length - 2 := by omega
  rw [ht]

theorem pyIdx_neg_two_err (l : List Nat) (hl : l.length < 2) :
    pyIdx l (-2) = .error .indexError := by
  simp only [pyIdx, pyNorm_neg l.length (-2) (by norm_num)]
  rw [if_neg (by omega)]

/-- Unfolding of `_store_universe` by policy. -/
theorem store_universe_eq (s : Session) (h : Heap) (addr : Nat) :
    Player2._store_universe s h addr =
      if s.storePolicy then
        ({ s with universe_states := s.universe_states ++ [addr] }, h)
      else
        ({ s with universe_states := s.universe_states ++ [h.length] },
         h ++ [h.read addr]) := by
  unfold Player2._store_universe Player2._store_universe_ref
    Player2._store_universe_copy Heap.alloc
  split <;> rfl

/-- Unfolding of `_set_initial` in closed form. -/
theorem set_initial_eq (hook : Session → Session) (s : Session) (h : Heap)
    (uniAddr : Nat) (gs : GState) :
    Player2._set_initial hook s h uniAddr gs =
      (hook { s with storePolicy := s._remote_game, _current_state := gs,
                     universe_states := [if s._remote_game then uniAddr else h.length],
                     rnd := match gs.seed with
                       | some sd => some (sd + s.seed_offset.getD s._index)
                       | none => none },
       if s._remote_game then h else h ++ [h.read uniAddr]) := by
  cases hrg : s._remote_game <;>
    simp [Player2._set_initial, store_universe_eq, hrg]

/-! Helper lemmas about the `_bot_players` dict and the binding loop. -/

theorem dictGet_dictSet_self (d : List (Int × PyObj)) (k : Int) (v : PyObj) :
    dictGet (dictSet d k v) k = some v := by
  induction d with
  | nil => simp [dictGet, dictSet]
  | cons kv rest ih =>
    by_cases h : kv.1 = k
    · simp [dictSet, dictGet, h]
    · simp [dictSet, dictGet, h, ih]

theorem dictGet_dictSet_ne (d : List (Int × PyObj)) (k k' : Int) (v : PyObj)
    (hne : k ≠ k') : dictGet (dictSet d k v) k' = dictGet d k' := by
  induction d with
  | nil => simp [dictGet, dictSet, hne]
  | cons kv rest ih =>
    by_cases h : kv.1 = k
    · simp [dictSet, dictGet, h, hne]
    · simp [dictSet, dictGet, h, ih]

/-- The body of the `set_initial` binding loop, acting on the
`_bot_players` dict alone. -/
def bindAll (d : List (Int × PyObj)) (pairs : List (Int × PyObj)) :
    List (Int × PyObj) :=
  pairs.foldl (fun acc bp => dictSet acc bp.1 (bp.2.set_index bp.1)) d

theorem bindAll_nil (d : List (Int × PyObj)) : bindAll d [] = d := rfl

theorem bindAll_cons (d : List (Int × PyObj)) (bp : Int × PyObj)
    (pairs : List (Int × PyObj)) :
    bindAll d (bp :: pairs) = bindAll (dictSet d bp.1 (bp.2.set_index bp.1)) pairs := rfl

theorem dictGet_bindAll_of_notMem (pairs : List (Int × PyObj)) :
    ∀ (k : Int) (d : List (Int × PyObj)), k ∉ pairs.map Prod.fst →
      dictGet (bindAll d pairs) k = dictGet d k := by
  induction pairs with
  | nil => intro k d _; rfl
  | cons bp rest ih =>
    intro k d hk
    simp only [List.map_cons, List.mem_cons, not_or] at hk
    rw [bindAll_cons, ih k _ hk.2, dictGet_dictSet_ne _ _ _ _ (Ne.symm hk.1)]

theorem dictGet_bindAll_mem (pairs : List (Int × PyObj)) :
    ∀ (d : List (Int × PyObj)), (pairs.map Prod.fst).Nodup →
      ∀ bp ∈ pairs, dictGet (bindAll d pairs) bp.1 = some (bp.2.set_index bp.1) := by
  induction pairs with
  | nil => intro d _ bp h; simp at h
  | cons hd rest ih =>
    intro d hnd bp hmem
    simp only [List.map_cons, List.nodup_cons] at hnd
    rcases List.mem_cons.mp hmem with heq | hrest
    · subst heq
      rw [bindAll_cons, dictGet_bindAll_of_notMem rest bp.1 _ hnd.1,
        dictGet_dictSet_self]
    · rw [bindAll_cons]
      exact ih _ hnd.2 bp hrest

theorem set_initial_foldl (pairs : List (Int × PyObj)) (t : SimpleTeam) :
    pairs.foldl
      (fun acc bp =>
        { acc with _bot_players := dictSet acc._bot_players bp.1 (bp.2.set_index bp.1) })
      t
      = { t with _bot_players := bindAll t._bot_players pairs } := by
  induction pairs generalizing t with
  | nil => rfl
  | cons bp rest ih => rw [List.foldl_cons, ih, bindAll_cons]

/-- Closed form of `SimpleTeam.set_initial` in the non-error case. -/
theorem set_initial_ok (t : SimpleTeam) (bots : List Int)
    (hB : bots.length ≤ t._players.length) :
    SimpleTeam.set_initial t bots =
      ({ t with _bot_players := bindAll t._bot_players (bots.zip t._players) },
       .ok t.team_name) := by
  unfold SimpleTeam.set_initial
  rw [if_neg (by omega), set_initial_foldl]

/-! Concrete fixtures used by the witness theorems. -/

/-- A movement primitive that always accepts, advancing the snapshot value
and returning a fixed new game state. -/
def mbWit : Player2.MoveBot := fun v _ _ => .ok (v + 1, ⟨some 5, 1⟩)

/-- A movement primitive that always rejects. -/
def mbRejectWit : Player2.MoveBot := fun _ _ _ => .error 7

/-- A concrete initialized session: bound index 3, local game (value
policy), one stored snapshot at heap address 0, concrete-class `copy`
available. -/
def sessWit : Session :=
  { _index := 3, _remote_game := false, seed_offset := none,
    storePolicy := false, universe_states := [0],
    _current_state := ⟨none, 0⟩, rnd := none, _say := "", hasCopy := true }

/-- A concrete player object exposing all three required methods. -/
def playerWit (n : Nat) : PyObj :=
  .player { pid := n, _index := none, has_set_index := true,
            has_get_move := true, has_set_initial := true }

/-- A concrete two-player team. -/
def teamWit : SimpleTeam :=
  { team_name := "team one", _players := [playerWit 0, playerWit 1],
    _bot_players := [], _remote_game := false }

/-! Characterisation of `firstMissing`. -/

theorem firstMissing_some (ps : List PyObj) (m : String)
    (h : SimpleTeam.firstMissing ps = some m) :
    m ∈ SimpleTeam.requiredMethods ∧ ∃ p ∈ ps, p.hasattr m = false := by
  unfold SimpleTeam.firstMissing at h
  obtain ⟨p, hp, hfind⟩ := List.exists_of_findSome?_eq_some h
  refine ⟨List.mem_of_find?_eq_some hfind, p, hp, ?_⟩
  simpa using List.find?_some hfind

theorem firstMissing_none (ps : List PyObj) :
    SimpleTeam.firstMissing ps = none ↔
      ∀ p ∈ ps, ∀ m ∈ SimpleTeam.requiredMethods, p.hasattr m = true := by
  unfold SimpleTeam.firstMissing
  rw [List.findSome?_eq_none_iff]
  constructor
  · intro h p hp m hm
    have h2 := h p hp
    rw [List.find?_eq_none] at h2
    simpa using h2 m hm
  · intro h p hp
    rw [List.find?_eq_none]
    intro m hm
    simpa using h p hp m hm

/-- C2: for any team built from P agents and any assigned bot-index
sequence of length B with B <= P, `set_initial` binds the i-th assigned
index to the i-th agent (positionally) for every i < B, registering each
binding in `_bot_players`, and returns the configured team name, which is
the empty string when no name was given at construction. -/
theorem c2_set_initial_binds (t : SimpleTeam) (bots : List Int)
    (hB : bots.length ≤ t._players.length) (hnd : bots.Nodup) :
    (SimpleTeam.set_initial t bots).2 = .ok t.team_name ∧
    (∀ i (hi : i < bots.length),
      dictGet ((SimpleTeam.set_initial t bots).1)._bot_players (bots.get ⟨i, hi⟩) =
        some ((t._players.get ⟨i, Nat.lt_of_lt_of_le hi hB⟩).set_index
                (bots.get ⟨i, hi⟩))) ∧
    (∀ args, SimpleTeam.init args = .ok t →
      ∀ p rest, args = PyObj.player p :: rest → t.team_name = "") := by
  have hok := set_initial_ok t bots hB
  refine ⟨by rw [hok], ?_, ?_⟩
  · intro i hi
    rw [hok]
    have hilen : i < (bots.zip t._players).length := by
      rw [List.length_zip]; omega
    have hmem : (bots.zip t._players)[i] ∈ bots.zip t._players :=
      List.getElem_mem hilen
    rw [List.getElem_zip] at hmem
    have hkeys : ((bots.zip t._players).map Prod.fst).Nodup := by
      rw [List.map_fst_zip _ _ hB]; exact hnd
    have hbind := dictGet_bindAll_mem (bots.zip t._players) t._bot_players hkeys _ hmem
    simpa [List.get_eq_getElem] using hbind
  · intro args hinit p rest harg
    subst harg
    unfold SimpleTeam.init at hinit
    rw [if_neg (by simp)] at hinit
    cases hfm : SimpleTeam.firstMissing (SimpleTeam.playersPart (PyObj.player p :: rest)) with
    | some m => rw [hfm] at hinit; simp at hinit
    | none =>
      rw [hfm] at hinit
      simp only [Except.ok.injEq] at hinit
      rw [← hinit]
      rfl

/-- Witness for C2 at a concrete team: two players, one assigned index. -/
theorem c2_set_initial_binds_witness :
    (SimpleTeam.set_initial teamWit [3]).2 = .ok "team one" ∧
    dictGet ((SimpleTeam.set_initial teamWit [3]).1)._bot_players 3 =
      some (.player { pid := 0, _index := some 3, has_set_index := true,
                      has_get_move := true, has_set_initial := true }) := by
  obtain ⟨h1, h2, _⟩ := c2_set_initial_binds teamWit [3] (by decide) (by decide)
  exact ⟨h1, h2 0 (by decide)⟩

/-- C3: for B > P, `set_initial` raises `ValueError` and performs no
binding at all: the post-state of the team (including `_bot_players`) is
exactly the pre-state. -/
theorem c3_set_initial_overflow (t : SimpleTeam) (bots : List Int)
    (hover : t._players.length < bots.length) :
    SimpleTeam.set_initial t bots =
      (t, .error (.valueError ("Tried to set " ++ toString bots.length ++
         " bot_ids with only " ++ toString t._players.length ++ " Players."))) := by
  unfold SimpleTeam.set_initial
  rw [if_pos (by omega)]

/-- Witness for C3: one player, two assigned indices; the team (and its
mapping) is returned unchanged alongside the error. -/
theorem c3_set_initial_overflow_witness :
    SimpleTeam.set_initial { teamWit with _players := [playerWit 0] } [3, 7] =
      ({ teamWit with _players := [playerWit 0] },
       .error (.valueError "Tried to set 2 bot_ids with only 1 Players.")) := by
  have h := c3_set_initial_overflow { teamWit with _players := [playerWit 0] }
    [3, 7] (by decide)
  rw [h]
  decide

/-- C7 counterexample: constructing a team from only a display name and
zero agents succeeds (the empty-argument check does not fire, and the
capability loop over zero players is vacuous), contradicting the claim that
this case is a construction-time error. -/
theorem c7_name_only_constructs :
    SimpleTeam.init [PyObj.str "cool team"] =
      .ok { team_name := "cool team", _players := [], _bot_players := [],
            _remote_game := false } := rfl

/-- C7 (amended): construction fails in exactly two cases: a player lacking
one of the three required private operations (the `TypeError` names the
missing one), or a completely empty argument list (`ValueError`); a call
with only a team display name and zero agents is not an error. -/
theorem c7_construction_errors (args : List PyObj) :
    ((∃ e, SimpleTeam.init args = .error e) ↔
      (args = [] ∨ ∃ p ∈ SimpleTeam.playersPart args,
        ∃ m ∈ SimpleTeam.requiredMethods, p.hasattr m = false)) ∧
    (∀ msg, SimpleTeam.init args = .error (.typeError msg) →
      ∃ m ∈ SimpleTeam.requiredMethods,
        msg = "player missing " ++ m ++ "()" ∧
        ∃ p ∈ SimpleTeam.playersPart args, p.hasattr m = false) ∧
    (args = [] → SimpleTeam.init args = .error (.valueError "No teams given.")) := by
  refine ⟨⟨?_, ?_⟩, ?_, ?_⟩
  · rintro ⟨e, he⟩
    cases args with
    | nil => exact Or.inl rfl
    | cons a rest =>
      right
      unfold SimpleTeam.init at he
      rw [if_neg (by simp)] at he
      cases hfm : SimpleTeam.firstMissing (SimpleTeam.playersPart (a :: rest)) with
      | some m =>
        obtain ⟨hm, p, hp, hpm⟩ := firstMissing_some _ _ hfm
        exact ⟨p, hp, m, hm, hpm⟩
      | none => rw [hfm] at he; simp at he
  · rintro (rfl | ⟨p, hp, m, hm, hpm⟩)
    · exact ⟨.valueError "No teams given.", rfl⟩
    · cases args with
      | nil => simp [SimpleTeam.playersPart] at hp
      | cons a rest =>
        unfold SimpleTeam.init
        rw [if_neg (by simp)]
        cases hfm : SimpleTeam.firstMissing (SimpleTeam.playersPart (a :: rest)) with
        | some m2 => exact ⟨_, rfl⟩
        | none =>
          rw [firstMissing_none] at hfm
          have h2 := hfm p hp m hm
          rw [hpm] at h2
          simp at h2
  · intro msg he
    cases args with
    | nil => simp [SimpleTeam.init] at he
    | cons a rest =>
      unfold SimpleTeam.init at he
      rw [if_neg (by simp)] at he
      cases hfm : SimpleTeam.firstMissing (SimpleTeam.playersPart (a :: rest)) with
      | some m =>
        rw [hfm] at he
        obtain ⟨hm, p, hp, hpm⟩ := firstMissing_some _ _ hfm
        simp only [Except.error.injEq, PyErr.typeError.injEq] at he
        exact ⟨m, hm, he.symm, p, hp, hpm⟩
      | none => rw [hfm] at he; simp at he
  · rintro rfl
    rfl

/-- Witness for C7 (amended) at concrete inputs: a capability error naming
the missing method for a string passed in player position, and the
empty-argument error. -/
theorem c7_construction_errors_witness :
    (∃ e, SimpleTeam.init [playerWit 0, PyObj.str "oops"] = .error e) ∧
    (∃ m ∈ SimpleTeam.requiredMethods,
      "player missing _set_index()" = "player missing " ++ m ++ "()" ∧
      ∃ p ∈ SimpleTeam.playersPart [playerWit 0, PyObj.str "oops"],
        p.hasattr m = false) ∧
    SimpleTeam.init [] = .error (.valueError "No teams given.") := by
  refine ⟨?_, ?_, ?_⟩
  · exact (c7_construction_errors [playerWit 0, PyObj.str "oops"]).1.mpr
      (Or.inr ⟨PyObj.str "oops", by decide, "_set_index", by decide, by decide⟩)
  · exact (c7_construction_errors [playerWit 0, PyObj.str "oops"]).2.1
      "player missing _set_index()" (by decide)
  · exact (c7_construction_errors []).2.2 rfl

/-- C4: with an integer seed `n` in the metadata, `_set_initial` seeds the
per-bot stream with `n` plus an offset defaulting to the bound bot index;
distinct indices under the same game seed give distinct stream seeds, and
the seed is a function of game seed, offset attribute and bound index only,
so repeated runs with the same inputs reproduce the same stream. -/
theorem c4_rnd_seeding (s : Session) (h : Heap) (a : Nat) (gs : GState)
    (n : Int) (hseed : gs.seed = some n) :
    (s.seed_offset = none →
      ((Player2._set_initial id s h a gs).1).rnd = some (n + s._index)) ∧
    (∀ k, s.seed_offset = some k →
      ((Player2._set_initial id s h a gs).1).rnd = some (n + k)) ∧
    (∀ s2 h2 a2, s.seed_offset = none → s2.seed_offset = none →
      s._index ≠ s2._index →
      ((Player2._set_initial id s h a gs).1).rnd ≠
        ((Player2._set_initial id s2 h2 a2 gs).1).rnd) ∧
    (∀ s2 h2 a2, s2.seed_offset = s.seed_offset → s2._index = s._index →
      ((Player2._set_initial id s2 h2 a2 gs).1).rnd =
        ((Player2._set_initial id s h a gs).1).rnd) := by
  refine ⟨?_, ?_, ?_, ?_⟩
  · intro ho
    simp [set_initial_eq, hseed, ho]
  · intro k hk
    simp [set_initial_eq, hseed, hk]
  · intro s2 h2 a2 ho ho2 hne
    simp only [set_initial_eq, hseed, ho, ho2, id_eq, Option.getD_none]
    simp only [Option.some.injEq, ne_eq]
    omega
  · intro s2 h2 a2 he hi
    simp [set_initial_eq, hseed, he, hi]

/-- Witness for C4: agents bound to bot indices 3 and 7 under game seed 42
get stream seeds 45 and 49, and the two differ. -/
theorem c4_rnd_seeding_witness :
    ((Player2._set_initial id sessWit [] 0 ⟨some 42, 0⟩).1).rnd = some (42 + 3) ∧
    ((Player2._set_initial id { sessWit with _index := 7 } [] 0 ⟨some 42, 0⟩).1).rnd
      = some (42 + 7) ∧
    ((Player2._set_initial id sessWit [] 0 ⟨some 42, 0⟩).1).rnd ≠
      ((Player2._set_initial id { sessWit with _index := 7 } [] 0 ⟨some 42, 0⟩).1).rnd :=
  ⟨(c4_rnd_seeding sessWit [] 0 ⟨some 42, 0⟩ 42 rfl).1 rfl,
   (c4_rnd_seeding { sessWit with _index := 7 } [] 0 ⟨some 42, 0⟩ 42 rfl).1 rfl,
   (c4_rnd_seeding sessWit [] 0 ⟨some 42, 0⟩ 42 rfl).2.2.1
     { sessWit with _index := 7 } [] 0 rfl rfl (by decide)⟩

/-- C5: the storage policy is fixed at initialisation from the remote flag
and drives every append through `_store_universe`: under the value policy a
stored entry is an independent copy, immune to later mutation of the source
snapshot object; under the reference policy it is the same object, so the
mutation shows through; and a move request never changes the policy. -/
theorem c5_storage_policy (s : Session) (h : Heap) (addr : Nat) (gs : GState) :
    ((Player2._set_initial id s h addr gs).1).storePolicy = s._remote_game ∧
    (s.storePolicy = false → addr < h.length →
      Player2._store_universe s h addr =
        ({ s with universe_states := s.universe_states ++ [h.length] },
         h ++ [h.read addr]) ∧
      ∀ v, (((h ++ [h.read addr]).write addr v).read h.length = h.read addr)) ∧
    (s.storePolicy = true → addr < h.length →
      Player2._store_universe s h addr =
        ({ s with universe_states := s.universe_states ++ [addr] }, h) ∧
      ∀ v, ((h.write addr v).read addr = v)) ∧
    (∀ gm uniAddr gs2,
      (∀ s2 h2, (gm s2 h2).1.storePolicy = s2.storePolicy) →
      ((Player2._get_move gm s h uniAddr gs2).1).storePolicy = s.storePolicy) := by
  refine ⟨?_, ?_, ?_, ?_⟩
  · cases hrg : s._remote_game <;> simp [set_initial_eq, hrg]
  · intro hpol haddr
    refine ⟨by rw [store_universe_eq, if_neg (by simp [hpol])], ?_⟩
    intro v
    rw [Heap.read_write_ne _ _ (by omega), Heap.read_append_self]
  · intro hpol haddr
    refine ⟨by rw [store_universe_eq, if_pos hpol], ?_⟩
    intro v
    exact Heap.read_write_self h v haddr
  · intro gm uniAddr gs2 hgm
    cases hp : s.storePolicy <;>
      simp [Player2._get_move, store_universe_eq, hp, hgm]

/-- Witness for C5 at a concrete session and heap: the copy-policy append
is immune to mutation of the source object, the reference-policy append is
not, the policy records the remote flag at initialisation, and a move
request leaves it fixed. -/
theorem c5_storage_policy_witness :
    ((Player2._set_initial id { sessWit with _remote_game := true } [7] 0
        ⟨none, 0⟩).1).storePolicy = true ∧
    (Player2._store_universe sessWit [7] 0 =
      ({ sessWit with universe_states := [0, 1] }, [7, 7]) ∧
     ∀ v, ((Heap.write [7, 7] 0 v).read 1 = 7)) ∧
    (Player2._store_universe { sessWit with storePolicy := true } [7] 0 =
      ({ sessWit with storePolicy := true, universe_states := [0, 0] }, [7]) ∧
     ∀ v, ((Heap.write [7] 0 v).read 0 = v)) ∧
    ((Player2._get_move (fun s2 _ => (s2, Dir.stop)) sessWit [7] 0
        ⟨none, 0⟩).1).storePolicy = false := by
  refine ⟨?_, ?_, ?_, ?_⟩
  · exact (c5_storage_policy { sessWit with _remote_game := true } [7] 0 ⟨none, 0⟩).1
  · have hb := (c5_storage_policy sessWit [7] 0 ⟨none, 0⟩).2.1 rfl (by decide)
    constructor
    · rw [hb.1]; decide
    · intro v
      have h2 := hb.2 v
      simpa using h2
  · have hc := (c5_storage_policy { sessWit with storePolicy := true } [7] 0
      ⟨none, 0⟩).2.2.1 rfl (by decide)
    constructor
    · rw [hc.1]; decide
    · exact hc.2
  · exact (c5_storage_policy sessWit [7] 0 ⟨none, 0⟩).2.2.2
      (fun s2 _ => (s2, Dir.stop)) 0 ⟨none, 0⟩ (fun s2 _ => rfl)

/-- A conforming concrete agent used to observe the accessor surface from
inside `get_move`: it records in its spoken text whether `previous_pos`
succeeded and whether the history holds exactly two snapshots, then stands
still. -/
def probeGetMove (s : Session) (h : Heap) : Session × Dir :=
  ({ s with _say :=
      match Player2.previous_pos (fun _ _ => (0, 0)) s h with
      | .ok _ => if s.universe_states.length = 2 then "prev-ok-len2" else "prev-ok"
      | .error _ => "prev-err" },
   Dir.stop)

/-- C8 counterexample: on the very first move request of a session, the
history already holds two snapshots (the initial one stored by
`_set_initial` plus the one stored by `_get_move` before the agent logic
runs), so `previous_pos` succeeds instead of failing with an out-of-range
condition. -/
theorem c8_first_move_previous_pos_ok :
    ((Player2._get_move probeGetMove
        (Player2._set_initial id { sessWit with universe_states := [] } [5] 0
          ⟨none, 0⟩).1
        (Player2._set_initial id { sessWit with universe_states := [] } [5] 0
          ⟨none, 0⟩).2
        0 ⟨none, 0⟩).2.2).say = "prev-ok-len2" := by
  decide

/-- C8 (amended): `previous_pos` fails with an out-of-range condition
exactly when the session holds fewer than two snapshots — which is the case
before the first move request has stored its snapshot (e.g. inside the
`set_initial` hook), but not during the first move request itself, where
two snapshots already exist and the accessor succeeds. -/
theorem c8_previous_pos_bounds (bp : SnapVal → Int → Int × Int) (s : Session)
    (h : Heap) :
    (s.universe_states.length < 2 →
      Player2.previous_pos bp s h = .error .indexError) ∧
    (2 ≤ s.universe_states.length →
      Player2.previous_pos bp s h =
        .ok (bp (h.read (s.universe_states.getD (s.universe_states.length - 2) 0))
               s._index)) := by
  constructor
  · intro hlt
    unfold Player2.previous_pos
    rw [pyIdx_neg_two_err _ hlt]
    rfl
  · intro hge
    unfold Player2.previous_pos
    rw [pyIdx_neg_two_ok _ hge]
    rfl

/-- Witness for C8 (amended): a one-snapshot session fails with
`IndexError`; a two-snapshot session succeeds. -/
theorem c8_previous_pos_bounds_witness :
    Player2.previous_pos (fun _ _ => (0, 0)) sessWit [9] = .error .indexError ∧
    Player2.previous_pos (fun _ _ => (0, 0))
        { sessWit with universe_states := [0, 1] } [9, 8] = .ok (0, 0) :=
  ⟨(c8_previous_pos_bounds (fun _ _ => (0, 0)) sessWit [9]).1 (by decide),
   (c8_previous_pos_bounds (fun _ _ => (0, 0))
      { sessWit with universe_states := [0, 1] } [9, 8]).2 (by decide)⟩

/-- C9: a scripted agent built from the shorthand string `"><v^-"` returns
east, west, south, north, stop on its first five move calls, and the sixth
call fails with the bare normalized `ValueError` (the generic "no more
moves" condition), not with the internal `StopIteration` signal. -/
theorem c9_stepping_script :
    (SteppingPlayer.fromString "><v^-").get_move.2 = .ok Dir.east ∧
    (SteppingPlayer.fromString "><v^-").get_move.1.get_move.2 = .ok Dir.west ∧
    (SteppingPlayer.fromString "><v^-").get_move.1.get_move.1.get_move.2 =
      .ok Dir.south ∧
    (SteppingPlayer.fromString "><v^-").get_move.1.get_move.1.get_move.1.get_move.2 =
      .ok Dir.north ∧
    (SteppingPlayer.fromString
      "><v^-").get_move.1.get_move.1.get_move.1.get_move.1.get_move.2 =
      .ok Dir.stop ∧
    (SteppingPlayer.fromString
      "><v^-").get_move.1.get_move.1.get_move.1.get_move.1.get_move.1.get_move.2 =
      .error (.valueError "") ∧
    (SteppingPlayer.fromString
      "><v^-").get_move.1.get_move.1.get_move.1.get_move.1.get_move.1.get_move.2 ≠
      .error .stopIteration := by
  decide

/-- C10: for a session whose concrete class defines no `copy` operation,
`simulate_move` fails with an attribute-lookup error for every move, legal
or not (the error is raised before the movement primitive is consulted),
leaving the session itself unchanged. -/
theorem c10_simulate_needs_copy (mb : Player2.MoveBot) (s : Session) (h : Heap)
    (m : Dir) (hc : s.hasCopy = false) (hne : s.universe_states ≠ []) :
    Player2.simulate_move mb s h m =
      (s, h ++ [h.read (s.universe_states.getD (s.universe_states.length - 1) 0)],
       .error (.attributeError "copy")) := by
  unfold Player2.simulate_move Player2._current_uni
  rw [pyIdx_neg_one _ hne]
  simp [hc, Heap.alloc]

/-- Witness for C10: a concrete copy-less session fails with the attribute
error on a move the primitive would accept and on one it would reject. -/
theorem c10_simulate_needs_copy_witness :
    Player2.simulate_move mbWit { sessWit with hasCopy := false } [4] Dir.north =
      ({ sessWit with hasCopy := false }, [4, 4], .error (.attributeError "copy")) ∧
    Player2.simulate_move mbRejectWit { sessWit with hasCopy := false } [4] Dir.north =
      ({ sessWit with hasCopy := false }, [4, 4], .error (.attributeError "copy")) := by
  constructor
  · have h1 := c10_simulate_needs_copy mbWit { sessWit with hasCopy := false }
      [4] Dir.north rfl (by decide)
    rw [h1]
    decide
  · have h2 := c10_simulate_needs_copy mbRejectWit { sessWit with hasCopy := false }
      [4] Dir.north rfl (by decide)
    rw [h2]
    decide

theorem getD_append_last (l : List Nat) (x : Nat) :
    (l ++ [x]).getD l.length 0 = x := by
  rw [List.getD_append_right l [x] 0 l.length le_rfl]
  simp

/-- Closed form of a successful `simulate_move`: the post-state of `self`
is `self` untouched, the heap gains the mutated copy of the current
snapshot, and the returned future session is the clone with the new
snapshot appended and the new game state installed. -/
theorem simulate_move_run (mb : Player2.MoveBot) (s : Session) (h : Heap)
    (m : Dir) (newVal : SnapVal) (newState : GState)
    (hc : s.hasCopy = true) (hne : s.universe_states ≠ [])
    (hmb : mb (h.read (s.universe_states.getD (s.universe_states.length - 1) 0))
             s._index m = .ok (newVal, newState)) :
    Player2.simulate_move mb s h m =
      (s,
       Heap.write
         (h ++ [h.read (s.universe_states.getD (s.universe_states.length - 1) 0)])
         h.length newVal,
       .ok { Player2.Session.copy s with
               universe_states := s.universe_states ++ [h.length],
               _current_state := newState }) := by
  unfold Player2.simulate_move Player2._current_uni
  rw [pyIdx_neg_one _ hne]
  rw [List.getD_eq_getElem?_getD] at hmb
  simp [hc, hmb, Heap.alloc, Player2.Session.copy]

/-- C1: for an initialized session `s` (with the spec-modelled session
clone available) and accepted moves, `simulate_move` returns `s` itself
unchanged (history and metadata reference included), does not disturb any
pre-existing snapshot object, and yields a detached session with exactly
one more history entry; chaining a second `simulate_move` yields two more
entries with the first future and `s` still unchanged. -/
theorem c1_simulate_frame (mb : Player2.MoveBot) (s : Session) (h : Heap)
    (m1 m2 : Dir) (nv1 nv2 : SnapVal) (ns1 ns2 : GState)
    (hc : s.hasCopy = true) (hne : s.universe_states ≠ [])
    (hmb1 : mb (h.read (s.universe_states.getD (s.universe_states.length - 1) 0))
              s._index m1 = .ok (nv1, ns1))
    (hmb2 : mb nv1 s._index m2 = .ok (nv2, ns2)) :
    ∃ h1 fut1 h2 fut2,
      Player2.simulate_move mb s h m1 = (s, h1, .ok fut1) ∧
      Player2.simulate_move mb fut1 h1 m2 = (fut1, h2, .ok fut2) ∧
      fut1.universe_states.length = s.universe_states.length + 1 ∧
      fut2.universe_states.length = s.universe_states.length + 2 ∧
      fut1._index = s._index ∧ fut1._current_state = ns1 ∧
      (∀ a, a < h.length → h1.read a = h.read a ∧ h2.read a = h.read a) := by
  have h1run := simulate_move_run mb s h m1 nv1 ns1 hc hne hmb1
  have hmb2' : mb
      (Heap.read
        (Heap.write
          (h ++ [h.read (s.universe_states.getD (s.universe_states.length - 1) 0)])
          h.length nv1)
        ((s.universe_states ++ [h.length]).getD
          ((s.universe_states ++ [h.length]).length - 1) 0))
      s._index m2 = .ok (nv2, ns2) := by
    have hlen1 : (s.universe_states ++ [h.length]).length - 1 =
        s.universe_states.length := by simp
    rw [hlen1, getD_append_last, Heap.read_write_self _ _ (by simp)]
    exact hmb2
  have h2run := simulate_move_run mb
    { Player2.Session.copy s with
        universe_states := s.universe_states ++ [h.length],
        _current_state := ns1 }
    (Heap.write
      (h ++ [h.read (s.universe_states.getD (s.universe_states.length - 1) 0)])
      h.length nv1)
    m2 nv2 ns2 hc (by simp) hmb2'
  refine ⟨_, _, _, _, h1run, h2run, by simp, by simp, rfl, rfl, ?_⟩
  intro a ha
  have hfr1 : Heap.read
      (Heap.write
        (h ++ [h.read (s.universe_states.getD (s.universe_states.length - 1) 0)])
        h.length nv1) a = h.read a := by
    rw [Heap.read_write_ne _ _ (by omega), Heap.read_append_lt _ _ ha]
  refine ⟨hfr1, ?_⟩
  have hlen2 : a < (Heap.write
      (h ++ [h.read (s.universe_states.getD (s.universe_states.length - 1) 0)])
      h.length nv1).length := by
    rw [Heap.length_write]
    simp
    omega
  rw [Heap.read_write_ne _ _ (by omega), Heap.read_append_lt _ _ hlen2, hfr1]

/-- Witness for C1: a concrete two-step simulation chain from a concrete
session and heap. -/
theorem c1_simulate_frame_witness :
    ∃ h1 fut1 h2 fut2,
      Player2.simulate_move mbWit sessWit [4] Dir.north = (sessWit, h1, .ok fut1) ∧
      Player2.simulate_move mbWit fut1 h1 Dir.east = (fut1, h2, .ok fut2) ∧
      fut1.universe_states.length = sessWit.universe_states.length + 1 ∧
      fut2.universe_states.length = sessWit.universe_states.length + 2 ∧
      fut1._index = sessWit._index ∧ fut1._current_state = ⟨some 5, 1⟩ ∧
      (∀ a, a < ([4] : Heap).length →
        h1.read a = Heap.read [4] a ∧ h2.read a = Heap.read [4] a) :=
  c1_simulate_frame mbWit sessWit [4] Dir.north Dir.east 5 6 ⟨some 5, 1⟩ ⟨some 5, 1⟩
    rfl (by decide) rfl rfl

/-- C6: when the movement primitive rejects the move, `simulate_move`
surfaces the distinct illegal-move error (not a stale or unmodified
session), with the original session returned untouched and every
pre-existing snapshot object unchanged. -/
theorem c6_simulate_illegal (mb : Player2.MoveBot) (s : Session) (h : Heap)
    (m : Dir) (e : Nat) (hc : s.hasCopy = true) (hne : s.universe_states ≠ [])
    (hrej : mb (h.read (s.universe_states.getD (s.universe_states.length - 1) 0))
              s._index m = .error e) :
    Player2.simulate_move mb s h m =
      (s, h ++ [h.read (s.universe_states.getD (s.universe_states.length - 1) 0)],
       .error (.illegalMove e)) ∧
    ∀ a, a < h.length →
      (h ++ [h.read (s.universe_states.getD (s.universe_states.length - 1) 0)]).read a
        = h.read a := by
  constructor
  · unfold Player2.simulate_move Player2._current_uni
    rw [pyIdx_neg_one _ hne]
    rw [List.getD_eq_getElem?_getD] at hrej
    simp [hc, hrej, Heap.alloc]
  · intro a ha
    exact Heap.read_append_lt h _ ha

/-- Witness for C6: a concrete rejecting primitive on a concrete session. -/
theorem c6_simulate_illegal_witness :
    Player2.simulate_move mbRejectWit sessWit [4] Dir.north =
      (sessWit, [4, 4], .error (.illegalMove 7)) ∧
    Heap.read [4, 4] 0 = Heap.read [4] 0 := by
  have hm := c6_simulate_illegal mbRejectWit sessWit [4] Dir.north 7 rfl
    (by decide) rfl
  exact ⟨by rw [hm.1]; decide, hm.2 0 (by decide)⟩
